import Mathlib

/-!
# Verification of the telemetry query client

A shallow embedding of `telemetry/client-query-metric.go`
(`PostMetricsQuery`, `QueryMetric`, `QueryMetricAndLabel`, `QueryMetricAsync`
and `QueryMetrics`), followed by theorems about it.

Conventions of the embedding:

* a Go `error` is `Option GoError`, `none` being `nil`;
* a Go `map[string]V` is an association list with pairwise distinct keys,
  read with `mapGet` and written with `mapSet`;
* a Go channel is the list of the values sent on it, oldest first; a send on a
  channel that has been closed panics;
* time is counted in whole units of `time.Duration` (nanoseconds); a timeout is
  a natural number, a negative `Duration` firing at once like zero;
* the scheduler's choices (which worker claims which metric, which case a
  `select` picks and after how long) are explicit arguments.
-/

set_option autoImplicit false

namespace CCloud

/-! ## Data model -/

/-- The message of a Go `error`. -/
abbrev GoError := String

/-- Modelled from the spec: `response.Telemetry` is declared outside the files at
hand. One data point of a successful query: its timestamp, its numeric value
(only ever copied by this code, never computed with) and the name of the metric
it belongs to. -/
structure Telemetry where
  Timestamp : String
  Value : Int
  Metric : String
deriving DecidableEq, Repr

/-- Modelled from the spec: `metric.Metric` is declared outside the files at hand.
Only its `Name` is read by this code. -/
structure Metric where
  Name : String
deriving DecidableEq, Repr

/-- Modelled from the spec: package `granularity` is outside the files at hand. A
granularity is its wire value together with the verdict of its `IsValid()`
method, whose body is absent. -/
structure Granularity where
  value : String
  IsValid : Bool
deriving DecidableEq, Repr

/-- The fields of `query.Query` that `QueryMetric` fills in. The builder
packages (`filter`, `interval`, `agg`, `group`) are outside the files at hand;
each field keeps the arguments its builder was given. -/
structure Query where
  Filter : List (String × String)
  Intervals : List String
  Aggregations : List String
  Granularity : Granularity
  GroupBy : List String
  Limit : Int
deriving DecidableEq, Repr

/-- The part of `response.Query` this code reads: `Data`. -/
structure Response where
  Data : List Telemetry
deriving DecidableEq, Repr

/-- The fields and the transport of `TelemetryClient` that this code uses.
`PostQuery q` stands for `client.PostQuery(&response, url, q)`, the url being
fixed by the client: it gives the decoded response and the error. -/
structure TelemetryClient where
  PageLimit : Int
  MaxWorkers : Int
  PostQuery : Query → Response × Option GoError

/-! ## Go maps -/

/-- The Go expression `m[k]` with the comma-ok result: the value stored under `k`. -/
def mapGet {V : Type} : List (String × V) → String → Option V
  | [], _ => none
  | (k', v) :: rest, k => if k' = k then some v else mapGet rest k

/-- The Go statement `m[k] = v`: overwrite the entry of `k`, or add one. -/
def mapSet {V : Type} : List (String × V) → String → V → List (String × V)
  | [], k, v => [(k, v)]
  | (k', v') :: rest, k, v =>
    if k' = k then (k, v) :: rest else (k', v') :: mapSet rest k v

/-- The key set of a Go map. -/
def mapKeys {V : Type} (m : List (String × V)) : List String :=
  m.map Prod.fst

/-- The Go expression `len(m)`. -/
def mapLen {V : Type} (m : List (String × V)) : Nat :=
  m.length

/-! ## `PostMetricsQuery` -/

/-- What one call of `PostMetricsQuery` does: the two values it returns and the
queries it handed to the transport. -/
structure Posted where
  response : Response
  err : Option GoError
  calls : List Query
deriving DecidableEq, Repr

def errAggregations : GoError := "Aggregations are required for Metric Queries"

def errGranularity : GoError := "Granularity is a required field and must be a valid value"

def errIntervals : GoError := "At least 1 Interval must be provided for metric queries"

/-- The method `PostMetricsQuery`: three guards, then the remote call. Logging is
left out. -/
def PostMetricsQuery (client : TelemetryClient) (query : Query) : Posted :=
  let response : Response := { Data := [] }
  if query.Aggregations.length ≤ 0 then
    { response := response, err := some errAggregations, calls := [] }
  else if query.Granularity.IsValid then
    { response := response, err := some errGranularity, calls := [] }
  else if query.Intervals.length ≤ 0 then
    { response := response, err := some errIntervals, calls := [] }
  else
    match client.PostQuery query with
    | (response, some err) => { response := response, err := some err, calls := [query] }
    | (response, none) => { response := response, err := none, calls := [query] }

/-! ## `QueryMetric` and `QueryMetricAndLabel` -/

/-- One iteration of `for i, r := range response.Data`: `d := r`,
`d.Metric = metric.Name`, `response.Data[i] = d`. -/
def tagAt (name : String) (data : List Telemetry) (i : Nat) : List Telemetry :=
  match data[i]? with
  | some r => data.set i { r with Metric := name }
  | none => data

/-- The whole loop `for i, r := range response.Data`, index by index. -/
def tagData (name : String) (data : List Telemetry) : List Telemetry :=
  (List.range data.length).foldl (tagAt name) data

/-- The query literal at the head of `QueryMetric`. -/
def metricQuery (client : TelemetryClient) (resourceType resourceID : String)
    (granularity : Granularity) (inter : String) (metric : Metric) : Query :=
  { Filter := [(resourceType, resourceID)]
    Intervals := [inter]
    Aggregations := [metric.Name]
    Granularity := granularity
    GroupBy := [resourceType]
    Limit := client.PageLimit }

/-- The query literal at the head of `QueryMetricAndLabel`. -/
def metricAndLabelQuery (client : TelemetryClient) (resourceType resourceID : String)
    (granularity : Granularity) (inter : String) (metric : Metric)
    (lbl lblValue : String) : Query :=
  { Filter := [(resourceType, resourceID), (lbl, lblValue)]
    Intervals := [inter]
    Aggregations := [metric.Name]
    Granularity := granularity
    GroupBy := [resourceType, lbl]
    Limit := client.PageLimit }

/-- The method `QueryMetric`. The loop runs whatever the error is. -/
def QueryMetric (client : TelemetryClient) (resourceType resourceID : String)
    (granularity : Granularity) (inter : String) (metric : Metric) :
    List Telemetry × Option GoError :=
  let query := metricQuery client resourceType resourceID granularity inter metric
  let posted := PostMetricsQuery client query
  (tagData metric.Name posted.response.Data, posted.err)

/-- The method `QueryMetricAndLabel`. -/
def QueryMetricAndLabel (client : TelemetryClient) (resourceType resourceID : String)
    (granularity : Granularity) (inter : String) (metric : Metric)
    (lbl lblValue : String) : List Telemetry × Option GoError :=
  let query :=
    metricAndLabelQuery client resourceType resourceID granularity inter metric lbl lblValue
  let posted := PostMetricsQuery client query
  (tagData metric.Name posted.response.Data, posted.err)

/-! ## `QueryMetricAsync` -/

/-- One send of a worker: `resultsChan <- res` or `errsChan <- err`. -/
inductive Send where
  | results (res : List (String × List Telemetry))
  | errs (err : List (String × GoError))
deriving DecidableEq, Repr

/-- What one run of a worker leaves behind: the sends that went through, in
order, and whether the goroutine ended in the panic of a send on a closed
channel. -/
structure WorkerRun where
  sends : List Send
  panicked : Bool
deriving DecidableEq, Repr

/-- The method `QueryMetricAsync`, run by one worker on the metrics it receives
from `metricChan` (oldest first). `QueryMetrics` closes `resultsChan` and
`errorsChan` when it returns (`defer close`), without waiting for its workers:
`stillOpen` is the number of sends this worker completes before that moment. A
send after it panics, which ends the goroutine: nothing is published for that
metric and the metrics behind it are not processed. -/
def QueryMetricAsync (client : TelemetryClient) (resourceType resourceID : String)
    (granularity : Granularity) (inter : String) : Nat → List Metric → WorkerRun
  | _, [] => { sends := [], panicked := false }
  | 0, _ :: _ => { sends := [], panicked := true }
  | stillOpen + 1, metric :: metricChan =>
    let send :=
      match QueryMetric client resourceType resourceID granularity inter metric with
      | (_, some e) => Send.errs (mapSet [] metric.Name e)
      | (r, none) => Send.results (mapSet [] metric.Name r)
    let rest :=
      QueryMetricAsync client resourceType resourceID granularity inter stillOpen metricChan
    { sends := send :: rest.sends, panicked := rest.panicked }

/-! ## `QueryMetrics`

The method is embedded in its three parts: the loop that starts the workers
(`spawned`), the workers' share of the queued metrics (`claimed`, `poolSends`)
and the aggregation loop (`aggregate`). -/

namespace QueryMetrics

/-- The bound of the start-up loop, `int(math.Min(float64(numMetrics),
float64(client.MaxWorkers)))`. The conversions are exact for a batch of fewer
than 2^53 metrics: a `MaxWorkers` too large to convert exactly is above
`numMetrics`, and a negative one gives a negative bound either way. -/
def spawnBound (numMetrics : Nat) (maxWorkers : Int) : Int :=
  min (numMetrics : Int) maxWorkers

/-- The loop `for id := 0; id < bound; id++ { go ... }` from the value `id` on:
the ids of the workers it starts. `fuel` bounds the number of iterations. -/
def spawnLoop (bound : Int) : Nat → Nat → List Nat
  | 0, _ => []
  | fuel + 1, id => if (id : Int) < bound then id :: spawnLoop bound fuel (id + 1) else []

/-- The ids of the workers started by `QueryMetrics`. The bound is at most
`numMetrics`, so `numMetrics` iterations are all the loop can make. -/
def spawned (numMetrics : Nat) (maxWorkers : Int) : List Nat :=
  spawnLoop (spawnBound numMetrics maxWorkers) numMetrics 0

/-- The number of `go client.QueryMetricAsync(...)` statements executed. -/
def workerCount (numMetrics : Nat) (maxWorkers : Int) : Nat :=
  (spawned numMetrics maxWorkers).length

/-- The metrics worker `w` receives from `metricsChan`: a value sent on a channel
is received by one receiver, and `owners` names, for each queued metric in
order, the worker whose receive got it (no entry: not received yet). -/
def claimed (metrics : List Metric) (owners : List Nat) (w : Nat) : List Metric :=
  ((metrics.zip owners).filter (fun p => p.2 == w)).map Prod.fst

/-- Everything the workers started by `QueryMetrics` send while the two channels
are open, worker by worker: `metrics.length` sends are more than a worker can
make. The aggregation loop receives before `QueryMetrics` returns, hence before
the channels are closed, so this bounds what it can receive. -/
def poolSends (client : TelemetryClient) (resourceType resourceID : String)
    (granularity : Granularity) (inter : String) (metrics : List Metric)
    (owners : List Nat) : List Send :=
  (spawned metrics.length client.MaxWorkers).flatMap fun w =>
    (QueryMetricAsync client resourceType resourceID granularity inter metrics.length
      (claimed metrics owners w)).sends

/-- What one `select` of the aggregation loop picks: a receive from
`resultsChan` or from `errorsChan`, `wait` time units after the `select` was
entered, or the timer `time.After(timeout)` created by this `select`. -/
inductive Selected where
  | result (wait : Nat) (r : List (String × List Telemetry))
  | error (wait : Nat) (e : List (String × GoError))
  | timer
deriving DecidableEq, Repr

/-- The receive that hands a sent value to the aggregation loop. -/
def Selected.ofSend (wait : Nat) : Send → Selected
  | Send.results r => Selected.result wait r
  | Send.errs e => Selected.error wait e

/-- A `select` can pick a receive only while its own timer has not fired. -/
def Selected.feasible (timeout : Nat) : Selected → Bool
  | Selected.result wait _ => decide (wait ≤ timeout)
  | Selected.error wait _ => decide (wait ≤ timeout)
  | Selected.timer => true

/-- The state of the aggregation loop: the two maps, the time elapsed since the
loop was entered, and whether `break out` was reached. -/
structure Agg where
  results : List (String × List Telemetry)
  errors : List (String × GoError)
  elapsed : Nat
  returned : Bool
deriving DecidableEq, Repr

/-- The state before the first `select`: `results` and `errors` freshly made. -/
def Agg.init : Agg :=
  { results := [], errors := [], elapsed := 0, returned := false }

/-- The body of `case r := <-resultsChan`:
`for m, re := range r { results[m] = append(results[m], re...) }`. -/
def mergeResults (results r : List (String × List Telemetry)) :
    List (String × List Telemetry) :=
  r.foldl (fun acc kv => mapSet acc kv.1 ((mapGet acc kv.1).getD [] ++ kv.2)) results

/-- The body of `case e := <-errorsChan`: `for m, er := range e { errors[m] = er }`. -/
def mergeErrors (errors e : List (String × GoError)) : List (String × GoError) :=
  e.foldl (fun acc kv => mapSet acc kv.1 kv.2) errors

/-- The loop `out: for { select { ... } }` of `QueryMetrics`, driven by what each
`select` picks. The list running out leaves the loop inside a `select`
(`returned = false`); the timer case leaves the loop, whatever would follow. -/
def aggregate (timeout : Nat) : List Selected → Agg → Agg
  | [], s => s
  | Selected.result wait r :: rest, s =>
    aggregate timeout rest
      { s with results := mergeResults s.results r, elapsed := s.elapsed + wait }
  | Selected.error wait e :: rest, s =>
    aggregate timeout rest
      { s with errors := mergeErrors s.errors e, elapsed := s.elapsed + wait }
  | Selected.timer :: _, s =>
    { s with elapsed := s.elapsed + timeout, returned := true }

/-- The picks of a run in which the loop receives the sends `recvs` one after the
other, each after the wait paired with it. -/
def receipts (recvs : List (Nat × Send)) : List Selected :=
  recvs.map fun p => Selected.ofSend p.1 p.2

end QueryMetrics

open QueryMetrics

/-! ## The outcomes of the specification -/

/-- The tagged outcome of one task, as the specification names it. -/
inductive Outcome where
  | Success (metricName : String) (points : List Telemetry)
  | Failure (metricName : String) (err : GoError)
deriving DecidableEq, Repr

/-- The way an outcome travels: a single-entry map on one of the two channels. -/
def Outcome.toSend : Outcome → Send
  | Outcome.Success name points => Send.results [(name, points)]
  | Outcome.Failure name err => Send.errs [(name, err)]

/-- The merge of the specification, in its words: a success sets `results[name]`
to the old sequence (empty if absent) followed by the points and leaves `errors`
alone; a failure sets `errors[name]` and leaves `results` alone. -/
def specMerge (maps : List (String × List Telemetry) × List (String × GoError)) :
    Outcome → List (String × List Telemetry) × List (String × GoError)
  | Outcome.Success name points =>
    (mapSet maps.1 name ((mapGet maps.1 name).getD [] ++ points), maps.2)
  | Outcome.Failure name err => (maps.1, mapSet maps.2 name err)

/-- The points of the successes of `name` among `outs`, in arrival order. -/
def successPoints (name : String) (outs : List Outcome) : List (List Telemetry) :=
  outs.filterMap fun o =>
    match o with
    | Outcome.Success n points => if n = name then some points else none
    | Outcome.Failure _ _ => none

/-- The errors of the failures of `name` among `outs`, in arrival order. -/
def failureErrs (name : String) (outs : List Outcome) : List GoError :=
  outs.filterMap fun o =>
    match o with
    | Outcome.Success _ _ => none
    | Outcome.Failure n err => if n = name then some err else none

/-- The sends that carry the outcomes `outs`, each with its wait. -/
def outcomeSends (outs : List (Nat × Outcome)) : List (Nat × Send) :=
  outs.map fun p => (p.1, p.2.toSend)

/-- The outcome of one task: what `QueryMetric` returned for it. -/
def outcomeOf (client : TelemetryClient) (resourceType resourceID : String)
    (granularity : Granularity) (inter : String) (metric : Metric) : Outcome :=
  match QueryMetric client resourceType resourceID granularity inter metric with
  | (_, some e) => Outcome.Failure metric.Name e
  | (r, none) => Outcome.Success metric.Name r

/-! ## Sample inputs -/

def transportOk : Query → Response × Option GoError := fun _ =>
  ({ Data := [{ Timestamp := "t0", Value := 7, Metric := "" },
              { Timestamp := "t1", Value := 9, Metric := "" }] }, none)

def sampleClient : TelemetryClient :=
  { PageLimit := 100, MaxWorkers := 2, PostQuery := transportOk }

def everyMinute : Granularity := { value := "PT1M", IsValid := true }

def noGranularity : Granularity := { value := "", IsValid := false }

/-! ## The tagging loop -/

theorem getElem?_tagAt (name : String) (data : List Telemetry) (i j : Nat) :
    (tagAt name data i)[j]? =
      if j = i then data[i]?.map (fun r => { r with Metric := name }) else data[j]? := by
  unfold tagAt
  cases h : data[i]? with
  | none =>
    by_cases hj : j = i
    · subst hj; simp [h]
    · simp [hj]
  | some r =>
    by_cases hj : j = i
    · subst hj
      have hlt : j < data.length := by
        rcases List.getElem?_eq_some_iff.1 h with ⟨hlt, _⟩
        exact hlt
      simp [List.getElem?_set, hlt]
    · have hji : ¬ i = j := fun e => hj e.symm
      simp [List.getElem?_set, hj, hji]

theorem getElem?_foldl_tagAt (name : String) (k : Nat) (data : List Telemetry) (j : Nat) :
    ((List.range k).foldl (tagAt name) data)[j]? =
      if j < k then data[j]?.map (fun r => { r with Metric := name }) else data[j]? := by
  induction k with
  | zero => simp
  | succ k ih =>
    rw [List.range_succ, List.foldl_append]
    simp only [List.foldl_cons, List.foldl_nil]
    rw [getElem?_tagAt]
    by_cases hj : j = k
    · subst hj
      rw [ih]
      simp
    · rw [ih]
      by_cases hlt : j < k
      · have : j < k + 1 := by omega
        simp [hj, hlt, this]
      · have : ¬ j < k + 1 := by omega
        simp [hj, hlt, this]

theorem tagData_eq_map (name : String) (data : List Telemetry) :
    tagData name data = data.map (fun r => { r with Metric := name }) := by
  apply List.ext_getElem?
  intro j
  unfold tagData
  rw [getElem?_foldl_tagAt]
  by_cases hlt : j < data.length
  · simp [hlt]
  · have hnone : data[j]? = none := List.getElem?_eq_none (by omega)
    simp [hlt, hnone]

/-- C9. `QueryMetric` and `QueryMetricAndLabel` return the points of the response
of `PostMetricsQuery` in the same number and order, each with `Metric` set to the
requested metric's name and with its timestamp and value untouched, together
with exactly the error of `PostMetricsQuery`. -/
theorem QueryMetric_tags_every_point (client : TelemetryClient)
    (resourceType resourceID : String) (granularity : Granularity) (inter : String)
    (metric : Metric) (lbl lblValue : String) :
    ((QueryMetric client resourceType resourceID granularity inter metric).1 =
        (PostMetricsQuery client
          (metricQuery client resourceType resourceID granularity inter metric)).response.Data.map
          (fun r => { Timestamp := r.Timestamp, Value := r.Value, Metric := metric.Name })
      ∧ (QueryMetric client resourceType resourceID granularity inter metric).1.length =
        (PostMetricsQuery client
          (metricQuery client resourceType resourceID granularity inter metric)).response.Data.length
      ∧ (QueryMetric client resourceType resourceID granularity inter metric).2 =
        (PostMetricsQuery client
          (metricQuery client resourceType resourceID granularity inter metric)).err)
    ∧ ((QueryMetricAndLabel client resourceType resourceID granularity inter metric
          lbl lblValue).1 =
        (PostMetricsQuery client
          (metricAndLabelQuery client resourceType resourceID granularity inter metric
            lbl lblValue)).response.Data.map
          (fun r => { Timestamp := r.Timestamp, Value := r.Value, Metric := metric.Name })
      ∧ (QueryMetricAndLabel client resourceType resourceID granularity inter metric
          lbl lblValue).1.length =
        (PostMetricsQuery client
          (metricAndLabelQuery client resourceType resourceID granularity inter metric
            lbl lblValue)).response.Data.length
      ∧ (QueryMetricAndLabel client resourceType resourceID granularity inter metric
          lbl lblValue).2 =
        (PostMetricsQuery client
          (metricAndLabelQuery client resourceType resourceID granularity inter metric
            lbl lblValue)).err) := by
  simp [QueryMetric, QueryMetricAndLabel, tagData_eq_map]

/-! ## The guards of `PostMetricsQuery` -/

theorem PostMetricsQuery_of_valid (client : TelemetryClient) (query : Query)
    (hagg : 0 < query.Aggregations.length) (hvalid : query.Granularity.IsValid = true) :
    PostMetricsQuery client query =
      { response := { Data := [] }, err := some errGranularity, calls := [] } := by
  have h0 : ¬ query.Aggregations.length ≤ 0 := by omega
  simp [PostMetricsQuery, h0, hvalid]

theorem PostMetricsQuery_of_invalid (client : TelemetryClient) (query : Query)
    (hagg : 0 < query.Aggregations.length) (hinvalid : query.Granularity.IsValid = false)
    (hint : 0 < query.Intervals.length) :
    (PostMetricsQuery client query).calls = [query]
      ∧ (PostMetricsQuery client query).err = (client.PostQuery query).2
      ∧ (PostMetricsQuery client query).response = (client.PostQuery query).1 := by
  have h0 : ¬ query.Aggregations.length ≤ 0 := by omega
  have h1 : ¬ query.Intervals.length ≤ 0 := by omega
  unfold PostMetricsQuery
  simp only [h0, hinvalid, h1, if_false, Bool.false_eq_true]
  rcases hq : client.PostQuery query with ⟨resp, _ | e⟩ <;> simp

/-- C10. At a query with one aggregation, one interval and a valid granularity
`PostMetricsQuery` returns the granularity error with an empty response and no
remote call, whatever the transport; at the same query with a granularity that
is not valid it issues the remote call and returns no granularity error. -/
theorem PostMetricsQuery_rejects_valid_granularity
    (post : Query → Response × Option GoError) :
    PostMetricsQuery { PageLimit := 100, MaxWorkers := 2, PostQuery := post }
        (metricQuery sampleClient "kafka" "lkc-1" everyMinute "PT1H/now" { Name := "bytes_in" }) =
      { response := { Data := [] }, err := some errGranularity, calls := [] }
    ∧ (PostMetricsQuery sampleClient
        (metricQuery sampleClient "kafka" "lkc-1" noGranularity "PT1H/now"
          { Name := "bytes_in" })).err = none
    ∧ (PostMetricsQuery sampleClient
        (metricQuery sampleClient "kafka" "lkc-1" noGranularity "PT1H/now"
          { Name := "bytes_in" })).calls =
        [metricQuery sampleClient "kafka" "lkc-1" noGranularity "PT1H/now" { Name := "bytes_in" }] := by
  refine ⟨?_, ?_, ?_⟩
  · exact PostMetricsQuery_of_valid _ _ (by simp [metricQuery]) rfl
  · rw [(PostMetricsQuery_of_invalid _ _ (by simp [metricQuery]) rfl (by simp [metricQuery])).2.1]
    rfl
  · exact (PostMetricsQuery_of_invalid _ _ (by simp [metricQuery]) rfl (by simp [metricQuery])).1

/-! ## The worker -/

theorem QueryMetricAsync_sends (client : TelemetryClient) (resourceType resourceID : String)
    (granularity : Granularity) (inter : String) (stillOpen : Nat) (ms : List Metric) :
    (QueryMetricAsync client resourceType resourceID granularity inter stillOpen ms).sends =
      (ms.take stillOpen).map fun m =>
        (outcomeOf client resourceType resourceID granularity inter m).toSend := by
  induction ms generalizing stillOpen with
  | nil => simp [QueryMetricAsync]
  | cons m ms ih =>
    cases stillOpen with
    | zero => simp [QueryMetricAsync]
    | succ n =>
      simp only [QueryMetricAsync, List.take_succ_cons, List.map_cons, ih, outcomeOf]
      rcases QueryMetric client resourceType resourceID granularity inter m with ⟨r, _ | e⟩ <;>
        simp [Outcome.toSend, mapSet]

theorem QueryMetricAsync_panicked (client : TelemetryClient) (resourceType resourceID : String)
    (granularity : Granularity) (inter : String) (stillOpen : Nat) (ms : List Metric) :
    (QueryMetricAsync client resourceType resourceID granularity inter stillOpen ms).panicked =
      decide (stillOpen < ms.length) := by
  induction ms generalizing stillOpen with
  | nil => simp [QueryMetricAsync]
  | cons m ms ih =>
    cases stillOpen with
    | zero => simp [QueryMetricAsync]
    | succ n => simp [QueryMetricAsync, ih]

theorem toSend_outcomeOf (client : TelemetryClient) (resourceType resourceID : String)
    (granularity : Granularity) (inter : String) (m : Metric) :
    (outcomeOf client resourceType resourceID granularity inter m).toSend =
      match (QueryMetric client resourceType resourceID granularity inter m).2 with
      | some e => Send.errs [(m.Name, e)]
      | none =>
        Send.results
          [(m.Name, (QueryMetric client resourceType resourceID granularity inter m).1)] := by
  unfold outcomeOf
  rcases QueryMetric client resourceType resourceID granularity inter m with ⟨r, _ | e⟩ <;> rfl

/-- While the two channels stay open for all the sends of a worker, it performs
exactly one send per metric received, in order: the single-entry map
`{m.Name: error}` on the errors channel when `QueryMetric` returned an error, the
single-entry map `{m.Name: points}` on the results channel otherwise; an error
does not stop it, and it ends without a panic. -/
theorem QueryMetricAsync_while_open (client : TelemetryClient)
    (resourceType resourceID : String) (granularity : Granularity) (inter : String)
    (stillOpen : Nat) (ms : List Metric) (hopen : ms.length ≤ stillOpen) :
    (QueryMetricAsync client resourceType resourceID granularity inter stillOpen ms).sends =
        ms.map (fun m =>
          match (QueryMetric client resourceType resourceID granularity inter m).2 with
          | some e => Send.errs [(m.Name, e)]
          | none =>
            Send.results
              [(m.Name, (QueryMetric client resourceType resourceID granularity inter m).1)])
    ∧ (QueryMetricAsync client resourceType resourceID granularity inter stillOpen
        ms).sends.length = ms.length
    ∧ (QueryMetricAsync client resourceType resourceID granularity inter stillOpen
        ms).panicked = false := by
  have hsends := QueryMetricAsync_sends client resourceType resourceID granularity inter
    stillOpen ms
  rw [List.take_of_length_le hopen] at hsends
  have hmap : (ms.map fun m =>
      (outcomeOf client resourceType resourceID granularity inter m).toSend) =
      ms.map (fun m =>
        match (QueryMetric client resourceType resourceID granularity inter m).2 with
        | some e => Send.errs [(m.Name, e)]
        | none =>
          Send.results
            [(m.Name, (QueryMetric client resourceType resourceID granularity inter m).1)]) :=
    List.map_congr_left (fun m _ => toSend_outcomeOf _ _ _ _ _ m)
  refine ⟨hsends.trans hmap, ?_, ?_⟩
  · rw [hsends, List.length_map]
  · rw [QueryMetricAsync_panicked]
    simp
    omega

/-- C8, at its failing run. `QueryMetrics` returns as soon as a timer is picked
and then closes both channels. A worker that has completed the sends for `ms₁`
by then and answers `m` afterwards panics at its send: the sends that went
through are those for `ms₁`, fewer than the metrics it received, and neither `m`
nor the metrics queued behind it get an outcome. For the batch of two metrics
answered after the timer has fired first, nothing at all is published. -/
theorem QueryMetricAsync_panics_after_close (client : TelemetryClient)
    (resourceType resourceID : String) (granularity : Granularity) (inter : String)
    (ms₁ : List Metric) (m : Metric) (ms₂ : List Metric) :
    (QueryMetricAsync client resourceType resourceID granularity inter ms₁.length
        (ms₁ ++ m :: ms₂)).panicked = true
    ∧ (QueryMetricAsync client resourceType resourceID granularity inter ms₁.length
        (ms₁ ++ m :: ms₂)).sends =
      (QueryMetricAsync client resourceType resourceID granularity inter ms₁.length ms₁).sends
    ∧ (QueryMetricAsync client resourceType resourceID granularity inter ms₁.length
        (ms₁ ++ m :: ms₂)).sends.length < (ms₁ ++ m :: ms₂).length
    ∧ (aggregate 10 [Selected.timer] Agg.init).returned = true
    ∧ QueryMetricAsync sampleClient "kafka" "lkc-1" noGranularity "PT1H/now" 0
        [{ Name := "bytes_in" }, { Name := "bytes_out" }] =
      { sends := [], panicked := true } := by
  refine ⟨?_, ?_, ?_, rfl, rfl⟩
  · rw [QueryMetricAsync_panicked]
    simp
  · rw [QueryMetricAsync_sends, QueryMetricAsync_sends, List.take_left', List.take_length]
    rfl
  · rw [QueryMetricAsync_sends, List.take_left' rfl]
    simp

/-! ## The number of workers -/

theorem spawnLoop_eq_range' (bound : Int) (fuel id : Nat) :
    spawnLoop bound fuel id = List.range' id (min fuel (bound - id).toNat) := by
  induction fuel generalizing id with
  | zero => simp [spawnLoop]
  | succ fuel ih =>
    by_cases h : (id : Int) < bound
    · have hlen : min (fuel + 1) (bound - id).toNat =
          min fuel (bound - ((id + 1 : Nat) : Int)).toNat + 1 := by
        omega
      rw [hlen, List.range'_succ]
      simp only [spawnLoop, h, if_true, ih]
    · have hlen : min (fuel + 1) (bound - id).toNat = 0 := by omega
      rw [hlen]
      simp [spawnLoop, h]

theorem spawned_eq_range (numMetrics : Nat) (maxWorkers : Int) :
    spawned numMetrics maxWorkers = List.range (min (numMetrics : Int) maxWorkers).toNat := by
  unfold spawned spawnBound
  rw [spawnLoop_eq_range', List.range_eq_range']
  congr 1
  omega

theorem workerCount_eq (numMetrics : Nat) (maxWorkers : Int) :
    workerCount numMetrics maxWorkers = (min (numMetrics : Int) maxWorkers).toNat := by
  simp [workerCount, spawned_eq_range]

/-- C5, as stated, fails: an empty batch starts no worker although
`max(1, min(0, 4)) = 1`; a ceiling of zero starts none for a batch of three; and
a negative ceiling is exceeded by the zero workers started. -/
theorem workerCount_not_max_one :
    ¬ ((workerCount 0 4 : Int) = max 1 (min ((0 : Nat) : Int) 4))
    ∧ ¬ ((workerCount 3 0 : Int) = max 1 (min ((3 : Nat) : Int) 0))
    ∧ ¬ ((workerCount 3 (-2) : Int) ≤ -2) := by
  simp [workerCount_eq]

/-- C5, amended. The number of workers started is `max(0, min(N, MaxWorkers))`;
it never exceeds the batch size `N`, it does not exceed `MaxWorkers` when that is
not negative, and it is `max(1, min(N, MaxWorkers))` when the batch is not empty
and `MaxWorkers` is at least one. -/
theorem workerCount_spec (numMetrics : Nat) (maxWorkers : Int) :
    (workerCount numMetrics maxWorkers : Int) = max 0 (min (numMetrics : Int) maxWorkers)
    ∧ workerCount numMetrics maxWorkers ≤ numMetrics
    ∧ (0 ≤ maxWorkers → (workerCount numMetrics maxWorkers : Int) ≤ maxWorkers)
    ∧ (1 ≤ numMetrics → 1 ≤ maxWorkers →
        (workerCount numMetrics maxWorkers : Int) = max 1 (min (numMetrics : Int) maxWorkers)) := by
  rw [workerCount_eq]
  refine ⟨?_, ?_, ?_, ?_⟩
  · omega
  · omega
  · intro h; omega
  · intro h1 h2; omega

/-- The amended C5 at a batch of three metrics with a ceiling of two workers. -/
theorem workerCount_spec_witness :
    (workerCount 3 2 : Int) = max 0 (min ((3 : Nat) : Int) 2)
    ∧ workerCount 3 2 ≤ 3
    ∧ ((0 : Int) ≤ 2 → (workerCount 3 2 : Int) ≤ 2)
    ∧ (1 ≤ 3 → (1 : Int) ≤ 2 → (workerCount 3 2 : Int) = max 1 (min ((3 : Nat) : Int) 2)) :=
  workerCount_spec 3 2

/-! ## Go maps: reading after writing, key sets -/

theorem mapGet_mapSet {V : Type} (m : List (String × V)) (k : String) (v : V) (k' : String) :
    mapGet (mapSet m k v) k' = if k = k' then some v else mapGet m k' := by
  induction m with
  | nil => simp [mapSet, mapGet]
  | cons p rest ih =>
    obtain ⟨a, b⟩ := p
    by_cases hak : a = k
    · subst hak
      by_cases hk : a = k' <;> simp [mapSet, mapGet, hk]
    · by_cases hak' : a = k'
      · subst hak'
        have hne : ¬ k = a := fun e => hak e.symm
        simp [mapSet, mapGet, hak, hne]
      · simp [mapSet, mapGet, hak, hak', ih]

theorem mem_mapKeys_mapSet {V : Type} (m : List (String × V)) (k : String) (v : V)
    (k' : String) : k' ∈ mapKeys (mapSet m k v) ↔ k' = k ∨ k' ∈ mapKeys m := by
  induction m with
  | nil => simp [mapSet, mapKeys]
  | cons p rest ih =>
    obtain ⟨a, b⟩ := p
    by_cases hak : a = k
    · subst hak
      simp [mapSet, mapKeys]
    · have ih' : k' ∈ List.map Prod.fst (mapSet rest k v) ↔
          k' = k ∨ k' ∈ List.map Prod.fst rest := ih
      simp only [mapSet, hak, if_false, mapKeys, List.map_cons, List.mem_cons, ih']
      tauto

theorem nodup_mapKeys_mapSet {V : Type} (m : List (String × V)) (k : String) (v : V)
    (h : (mapKeys m).Nodup) : (mapKeys (mapSet m k v)).Nodup := by
  induction m with
  | nil => simp [mapSet, mapKeys]
  | cons p rest ih =>
    obtain ⟨a, b⟩ := p
    have hcons : a ∉ mapKeys rest ∧ (mapKeys rest).Nodup := by
      simpa [mapKeys] using h
    by_cases hak : a = k
    · subst hak
      simpa [mapSet, mapKeys] using h
    · have hnot : a ∉ mapKeys (mapSet rest k v) := by
        rw [mem_mapKeys_mapSet]
        rintro (e | e)
        · exact hak e
        · exact hcons.1 e
      have hrest := ih hcons.2
      simp only [mapSet, hak, if_false]
      exact List.nodup_cons.2 ⟨hnot, hrest⟩

theorem mem_mapKeys_iff_mapGet {V : Type} (m : List (String × V)) (k : String) :
    k ∈ mapKeys m ↔ (mapGet m k).isSome = true := by
  induction m with
  | nil => simp [mapKeys, mapGet]
  | cons p rest ih =>
    obtain ⟨a, b⟩ := p
    have ih' : k ∈ List.map Prod.fst rest ↔ (mapGet rest k).isSome = true := ih
    by_cases hak : a = k
    · subst hak
      simp [mapKeys, mapGet]
    · have hne : ¬ k = a := fun e => hak e.symm
      simp only [mapKeys, List.map_cons, List.mem_cons, hne, false_or, mapGet, hak, if_false, ih']

/-! ## The two merge loops -/

theorem mem_mapKeys_mergeResults (r results : List (String × List Telemetry)) (k : String) :
    k ∈ mapKeys (mergeResults results r) ↔ k ∈ mapKeys results ∨ k ∈ mapKeys r := by
  induction r generalizing results with
  | nil => simp [mergeResults, mapKeys]
  | cons p rest ih =>
    have step := ih (mapSet results p.1 ((mapGet results p.1).getD [] ++ p.2))
    simp only [mergeResults, List.foldl_cons] at step ⊢
    rw [step, mem_mapKeys_mapSet]
    simp only [mapKeys, List.map_cons, List.mem_cons]
    tauto

theorem mem_mapKeys_mergeErrors (e errors : List (String × GoError)) (k : String) :
    k ∈ mapKeys (mergeErrors errors e) ↔ k ∈ mapKeys errors ∨ k ∈ mapKeys e := by
  induction e generalizing errors with
  | nil => simp [mergeErrors, mapKeys]
  | cons p rest ih =>
    have step := ih (mapSet errors p.1 p.2)
    simp only [mergeErrors, List.foldl_cons] at step ⊢
    rw [step, mem_mapKeys_mapSet]
    simp only [mapKeys, List.map_cons, List.mem_cons]
    tauto

theorem nodup_mapKeys_mergeResults (r results : List (String × List Telemetry))
    (h : (mapKeys results).Nodup) : (mapKeys (mergeResults results r)).Nodup := by
  induction r generalizing results with
  | nil => simpa [mergeResults] using h
  | cons p rest ih =>
    have step := ih (mapSet results p.1 ((mapGet results p.1).getD [] ++ p.2))
      (nodup_mapKeys_mapSet _ _ _ h)
    simpa only [mergeResults, List.foldl_cons] using step

theorem nodup_mapKeys_mergeErrors (e errors : List (String × GoError))
    (h : (mapKeys errors).Nodup) : (mapKeys (mergeErrors errors e)).Nodup := by
  induction e generalizing errors with
  | nil => simpa [mergeErrors] using h
  | cons p rest ih =>
    have step := ih (mapSet errors p.1 p.2) (nodup_mapKeys_mapSet _ _ _ h)
    simpa only [mergeErrors, List.foldl_cons] using step

/-! ## The aggregation loop -/

theorem receipts_nil : receipts [] = [] := rfl

theorem receipts_cons_results (w : Nat) (r : List (String × List Telemetry))
    (recvs : List (Nat × Send)) :
    receipts ((w, Send.results r) :: recvs) = Selected.result w r :: receipts recvs := rfl

theorem receipts_cons_errs (w : Nat) (e : List (String × GoError))
    (recvs : List (Nat × Send)) :
    receipts ((w, Send.errs e) :: recvs) = Selected.error w e :: receipts recvs := rfl

theorem outcomeSends_cons (w : Nat) (o : Outcome) (outs : List (Nat × Outcome)) :
    outcomeSends ((w, o) :: outs) = (w, o.toSend) :: outcomeSends outs := rfl

theorem aggregate_result (timeout wait : Nat) (r : List (String × List Telemetry))
    (rest : List Selected) (s : Agg) :
    aggregate timeout (Selected.result wait r :: rest) s =
      aggregate timeout rest
        { s with results := mergeResults s.results r, elapsed := s.elapsed + wait } := rfl

theorem aggregate_error (timeout wait : Nat) (e : List (String × GoError))
    (rest : List Selected) (s : Agg) :
    aggregate timeout (Selected.error wait e :: rest) s =
      aggregate timeout rest
        { s with errors := mergeErrors s.errors e, elapsed := s.elapsed + wait } := rfl

theorem aggregate_timer (timeout : Nat) (rest : List Selected) (s : Agg) :
    aggregate timeout (Selected.timer :: rest) s =
      { s with elapsed := s.elapsed + timeout, returned := true } := rfl

theorem aggregate_receipts_append (timeout : Nat) (recvs : List (Nat × Send))
    (rest : List Selected) (s : Agg) :
    aggregate timeout (receipts recvs ++ rest) s =
      aggregate timeout rest (aggregate timeout (receipts recvs) s) := by
  induction recvs generalizing s with
  | nil => rfl
  | cons p recvs ih =>
    obtain ⟨w, snd⟩ := p
    cases snd with
    | results r =>
      rw [receipts_cons_results, List.cons_append, aggregate_result, aggregate_result, ih]
    | errs e =>
      rw [receipts_cons_errs, List.cons_append, aggregate_error, aggregate_error, ih]

theorem aggregate_receipts_clock (timeout : Nat) (recvs : List (Nat × Send)) (s : Agg) :
    (aggregate timeout (receipts recvs) s).returned = s.returned
    ∧ (aggregate timeout (receipts recvs) s).elapsed = s.elapsed + (recvs.map Prod.fst).sum := by
  induction recvs generalizing s with
  | nil => exact ⟨rfl, by simp [receipts_nil, aggregate]⟩
  | cons p recvs ih =>
    obtain ⟨w, snd⟩ := p
    cases snd with
    | results r =>
      have step := ih { s with results := mergeResults s.results r, elapsed := s.elapsed + w }
      rw [receipts_cons_results, aggregate_result, List.map_cons, List.sum_cons]
      refine ⟨step.1, ?_⟩
      rw [step.2]
      show s.elapsed + w + _ = _
      omega
    | errs e =>
      have step := ih { s with errors := mergeErrors s.errors e, elapsed := s.elapsed + w }
      rw [receipts_cons_errs, aggregate_error, List.map_cons, List.sum_cons]
      refine ⟨step.1, ?_⟩
      rw [step.2]
      show s.elapsed + w + _ = _
      omega

theorem aggregate_timer_cut (timeout : Nat) (pre post : List Selected) (s : Agg) :
    aggregate timeout (pre ++ Selected.timer :: post) s =
      aggregate timeout (pre ++ [Selected.timer]) s := by
  induction pre generalizing s with
  | nil => simp [aggregate]
  | cons ev pre ih =>
    cases ev <;> simp [aggregate, ih]

theorem aggregate_outcomes (timeout : Nat) (outs : List (Nat × Outcome)) (s : Agg) :
    ((aggregate timeout (receipts (outcomeSends outs)) s).results,
      (aggregate timeout (receipts (outcomeSends outs)) s).errors) =
      (outs.map Prod.snd).foldl specMerge (s.results, s.errors) := by
  induction outs generalizing s with
  | nil => rfl
  | cons p outs ih =>
    obtain ⟨w, o⟩ := p
    cases o with
    | Success name points =>
      have step := ih { s with
        results := mapSet s.results name ((mapGet s.results name).getD [] ++ points),
        elapsed := s.elapsed + w }
      have hsend : (Outcome.Success name points).toSend = Send.results [(name, points)] := rfl
      rw [outcomeSends_cons, hsend, receipts_cons_results, aggregate_result, List.map_cons,
        List.foldl_cons]
      exact step
    | Failure name err =>
      have step := ih { s with errors := mapSet s.errors name err, elapsed := s.elapsed + w }
      have hsend : (Outcome.Failure name err).toSend = Send.errs [(name, err)] := rfl
      rw [outcomeSends_cons, hsend, receipts_cons_errs, aggregate_error, List.map_cons,
        List.foldl_cons]
      exact step

/-! ## The fold of the specification, entry by entry -/

theorem mapGet_foldl_specMerge_results (name : String) (os : List Outcome)
    (maps : List (String × List Telemetry) × List (String × GoError)) :
    mapGet (os.foldl specMerge maps).1 name =
      if successPoints name os = [] then mapGet maps.1 name
      else some ((mapGet maps.1 name).getD [] ++ (successPoints name os).flatten) := by
  induction os generalizing maps with
  | nil => simp [successPoints]
  | cons o os ih =>
    rw [List.foldl_cons, ih]
    cases o with
    | Success n points =>
      by_cases hn : n = name
      · subst hn
        have hsplit : successPoints n (Outcome.Success n points :: os) =
            points :: successPoints n os := by
          simp [successPoints]
        rw [hsplit]
        by_cases hrest : successPoints n os = []
        · simp [specMerge, mapGet_mapSet, hrest]
        · simp [specMerge, mapGet_mapSet, hrest]
      · have hsplit : successPoints name (Outcome.Success n points :: os) =
            successPoints name os := by
          simp [successPoints, hn]
        rw [hsplit]
        simp [specMerge, mapGet_mapSet, hn]
    | Failure n err =>
      have hsplit : successPoints name (Outcome.Failure n err :: os) =
          successPoints name os := by
        simp [successPoints]
      rw [hsplit]
      simp [specMerge]

theorem mapGet_foldl_specMerge_errors (name : String) (os : List Outcome)
    (maps : List (String × List Telemetry) × List (String × GoError)) :
    mapGet (os.foldl specMerge maps).2 name =
      match (failureErrs name os).getLast? with
      | some err => some err
      | none => mapGet maps.2 name := by
  induction os generalizing maps with
  | nil => simp [failureErrs]
  | cons o os ih =>
    rw [List.foldl_cons, ih]
    cases o with
    | Success n points => simp [failureErrs, specMerge]
    | Failure n err =>
      by_cases hn : n = name
      · subst hn
        have hsplit : failureErrs n (Outcome.Failure n err :: os) = err :: failureErrs n os := by
          simp [failureErrs]
        rw [hsplit]
        cases hlast : (failureErrs n os).getLast? with
        | none =>
          have hnil : failureErrs n os = [] := List.getLast?_eq_none_iff.1 hlast
          simp [hnil, specMerge, mapGet_mapSet]
        | some e =>
          have hne : failureErrs n os ≠ [] := by
            intro h0
            simp [h0] at hlast
          obtain ⟨x, xs, hx⟩ := List.exists_cons_of_ne_nil hne
          rw [hx] at hlast ⊢
          rw [List.getLast?_cons_cons]
          simp [hlast]
      · have hsplit : failureErrs name (Outcome.Failure n err :: os) = failureErrs name os := by
          simp [failureErrs, hn]
        have hne : ¬ n = name := hn
        rw [hsplit]
        cases hlast : (failureErrs name os).getLast? <;> simp [specMerge, mapGet_mapSet, hne]

/-! ## What `QueryMetrics` returns -/

theorem aggregate_receipts_timer (timeout : Nat) (recvs : List (Nat × Send))
    (post : List Selected) (s : Agg) :
    aggregate timeout (receipts recvs ++ Selected.timer :: post) s =
      { aggregate timeout (receipts recvs) s with
        elapsed := (aggregate timeout (receipts recvs) s).elapsed + timeout
        returned := true } := by
  rw [aggregate_receipts_append, aggregate_timer]

theorem aggregate_returned_of_timer (timeout : Nat) (pre : List Selected) (s : Agg) :
    (aggregate timeout (pre ++ [Selected.timer]) s).returned = true := by
  induction pre generalizing s with
  | nil => rfl
  | cons ev pre ih =>
    cases ev with
    | result w r => rw [List.cons_append, aggregate_result]; exact ih _
    | error w e => rw [List.cons_append, aggregate_error]; exact ih _
    | timer => rfl

theorem sum_waits_le (timeout : Nat) (recvs : List (Nat × Send))
    (hfeas : ∀ ev ∈ receipts recvs, Selected.feasible timeout ev = true) :
    (recvs.map Prod.fst).sum ≤ recvs.length * timeout := by
  induction recvs with
  | nil => simp
  | cons p recvs ih =>
    obtain ⟨w, snd⟩ := p
    have hw : w ≤ timeout := by
      cases snd with
      | results r =>
        have := hfeas (Selected.result w r) (by rw [receipts_cons_results]; exact List.mem_cons_self _ _)
        simpa [Selected.feasible] using this
      | errs e =>
        have := hfeas (Selected.error w e) (by rw [receipts_cons_errs]; exact List.mem_cons_self _ _)
        simpa [Selected.feasible] using this
    have hrest : ∀ ev ∈ receipts recvs, Selected.feasible timeout ev = true := by
      intro ev hev
      apply hfeas
      cases snd with
      | results r => rw [receipts_cons_results]; exact List.mem_cons_of_mem _ hev
      | errs e => rw [receipts_cons_errs]; exact List.mem_cons_of_mem _ hev
    have := ih hrest
    simp only [List.map_cons, List.sum_cons, List.length_cons]
    rw [Nat.succ_mul]
    omega

/-- C1. When the loop receives the outcomes `outs` and then picks the timer, it
returns, and the maps it returns are the left fold of the specification's merge
over `outs` from two empty maps. Entry by entry: `results[name]` is absent when
no success of `name` was received and otherwise holds the points of the
successes of `name` concatenated in arrival order (so a success with no points
still makes `name` a key), and `errors[name]` is the error of the last failure
of `name` received. -/
theorem QueryMetrics_merge_is_fold (timeout : Nat) (outs : List (Nat × Outcome))
    (post : List Selected) :
    (aggregate timeout (receipts (outcomeSends outs) ++ Selected.timer :: post)
        Agg.init).returned = true
    ∧ ((aggregate timeout (receipts (outcomeSends outs) ++ Selected.timer :: post)
          Agg.init).results,
        (aggregate timeout (receipts (outcomeSends outs) ++ Selected.timer :: post)
          Agg.init).errors) = (outs.map Prod.snd).foldl specMerge ([], [])
    ∧ (∀ name, mapGet (aggregate timeout (receipts (outcomeSends outs) ++
          Selected.timer :: post) Agg.init).results name =
        if successPoints name (outs.map Prod.snd) = [] then none
        else some (successPoints name (outs.map Prod.snd)).flatten)
    ∧ (∀ name, mapGet (aggregate timeout (receipts (outcomeSends outs) ++
          Selected.timer :: post) Agg.init).errors name =
        (failureErrs name (outs.map Prod.snd)).getLast?)
    ∧ (∀ w name, (w, Outcome.Success name []) ∈ outs →
        name ∈ mapKeys (aggregate timeout (receipts (outcomeSends outs) ++
          Selected.timer :: post) Agg.init).results) := by
  have hfold := aggregate_outcomes timeout outs Agg.init
  have hres : (aggregate timeout (receipts (outcomeSends outs) ++ Selected.timer :: post)
      Agg.init).results = ((outs.map Prod.snd).foldl specMerge ([], [])).1 := by
    rw [aggregate_receipts_timer]
    exact congrArg Prod.fst hfold
  have herr : (aggregate timeout (receipts (outcomeSends outs) ++ Selected.timer :: post)
      Agg.init).errors = ((outs.map Prod.snd).foldl specMerge ([], [])).2 := by
    rw [aggregate_receipts_timer]
    exact congrArg Prod.snd hfold
  have hget : ∀ name, mapGet ((outs.map Prod.snd).foldl specMerge ([], [])).1 name =
      if successPoints name (outs.map Prod.snd) = [] then none
      else some (successPoints name (outs.map Prod.snd)).flatten := by
    intro name
    rw [mapGet_foldl_specMerge_results]
    simp [mapGet]
  refine ⟨?_, ?_, ?_, ?_, ?_⟩
  · rw [aggregate_receipts_timer]
  · rw [hres, herr]
  · intro name
    rw [hres]
    exact hget name
  · intro name
    rw [herr, mapGet_foldl_specMerge_errors]
    cases (failureErrs name (outs.map Prod.snd)).getLast? <;> simp [mapGet]
  · intro w name hmem
    rw [hres, mem_mapKeys_iff_mapGet, hget]
    have hin : ([] : List Telemetry) ∈ successPoints name (outs.map Prod.snd) := by
      unfold successPoints
      rw [List.mem_filterMap]
      exact ⟨Outcome.Success name [], List.mem_map.2 ⟨(w, Outcome.Success name []), hmem, rfl⟩,
        by simp⟩
    have hne : successPoints name (outs.map Prod.snd) ≠ [] := List.ne_nil_of_mem hin
    simp [hne]

/-- The last part of C1 at a run that receives a success without points and a
failure. -/
theorem QueryMetrics_merge_is_fold_witness :
    (∀ w name, (w, Outcome.Success name []) ∈
        [(3, Outcome.Success "bytes_in" []), (1, Outcome.Failure "bytes_out" "boom")] →
        name ∈ mapKeys (aggregate 10 (receipts (outcomeSends
          [(3, Outcome.Success "bytes_in" []), (1, Outcome.Failure "bytes_out" "boom")]) ++
          Selected.timer :: []) Agg.init).results)
    ∧ (3, Outcome.Success "bytes_in" []) ∈
        [(3, Outcome.Success "bytes_in" []), (1, Outcome.Failure "bytes_out" "boom")] :=
  ⟨(QueryMetrics_merge_is_fold 10
      [(3, Outcome.Success "bytes_in" []), (1, Outcome.Failure "bytes_out" "boom")] []).2.2.2.2,
    by simp⟩

/-- C2. Whatever the loop would pick after the timer has no effect on what is
returned: two runs that agree up to the first pick of the timer return the same
state; after receipts followed by the timer the maps are the ones accumulated by
those receipts; and when the timer is the first pick both maps are empty. -/
theorem QueryMetrics_deadline_cuts_off (timeout : Nat) (pre : List Selected)
    (recvs : List (Nat × Send)) (post post' : List Selected) :
    aggregate timeout (pre ++ Selected.timer :: post) Agg.init =
        aggregate timeout (pre ++ Selected.timer :: post') Agg.init
    ∧ (aggregate timeout (pre ++ Selected.timer :: post) Agg.init).returned = true
    ∧ (aggregate timeout (receipts recvs ++ Selected.timer :: post) Agg.init).results =
        (aggregate timeout (receipts recvs) Agg.init).results
    ∧ (aggregate timeout (receipts recvs ++ Selected.timer :: post) Agg.init).errors =
        (aggregate timeout (receipts recvs) Agg.init).errors
    ∧ (aggregate timeout (Selected.timer :: post) Agg.init).results = []
    ∧ (aggregate timeout (Selected.timer :: post) Agg.init).errors = [] := by
  refine ⟨?_, ?_, ?_, ?_, rfl, rfl⟩
  · rw [aggregate_timer_cut timeout pre post, aggregate_timer_cut timeout pre post']
  · rw [aggregate_timer_cut]
    exact aggregate_returned_of_timer timeout pre Agg.init
  · rw [aggregate_receipts_timer]
  · rw [aggregate_receipts_timer]

/-- C3, as stated, fails: with a timeout of 10, an outcome received 9 after the
loop started is followed by a fresh timer, and the loop returns 19 after it
started. -/
theorem QueryMetrics_timer_restarts :
    Selected.feasible 10 (Selected.result 9 [("bytes_in", [])]) = true
    ∧ (aggregate 10 [Selected.result 9 [("bytes_in", [])], Selected.timer]
        Agg.init).returned = true
    ∧ (aggregate 10 [Selected.result 9 [("bytes_in", [])], Selected.timer]
        Agg.init).elapsed = 19
    ∧ ¬ ((aggregate 10 [Selected.result 9 [("bytes_in", [])], Selected.timer]
        Agg.init).elapsed ≤ 10) := by
  refine ⟨by decide, rfl, rfl, ?_⟩
  show ¬ ((19 : Nat) ≤ 10)
  decide

/-- C3, amended. Every `select` of the loop starts a timer of its own: when each
receipt is picked no later than the timer of its `select`, the loop returns
exactly `timeout` after its last receipt (after its start when there is none),
which is no later than `(k + 1) * timeout` after its start when `k` outcomes were
received. -/
theorem QueryMetrics_returns_timeout_after_last_receipt (timeout : Nat)
    (recvs : List (Nat × Send)) (post : List Selected)
    (hfeas : ∀ ev ∈ receipts recvs, Selected.feasible timeout ev = true) :
    (aggregate timeout (receipts recvs ++ Selected.timer :: post) Agg.init).returned = true
    ∧ (aggregate timeout (receipts recvs ++ Selected.timer :: post) Agg.init).elapsed =
        (aggregate timeout (receipts recvs) Agg.init).elapsed + timeout
    ∧ (aggregate timeout (receipts recvs) Agg.init).elapsed = (recvs.map Prod.fst).sum
    ∧ (aggregate timeout (receipts recvs ++ Selected.timer :: post) Agg.init).elapsed ≤
        (recvs.length + 1) * timeout := by
  have hclock := (aggregate_receipts_clock timeout recvs Agg.init).2
  have hsum := sum_waits_le timeout recvs hfeas
  have h0 : Agg.init.elapsed = 0 := rfl
  rw [h0, Nat.zero_add] at hclock
  rw [aggregate_receipts_timer]
  refine ⟨rfl, rfl, hclock, ?_⟩
  show (aggregate timeout (receipts recvs) Agg.init).elapsed + timeout ≤ _
  rw [hclock, Nat.add_mul, Nat.one_mul]
  omega

/-- The amended C3 at a run with two receipts, the second one tied with its timer. -/
theorem QueryMetrics_returns_timeout_after_last_receipt_witness :
    (∀ ev ∈ receipts [(9, Send.results [("bytes_in", [])]), (10, Send.errs [("bytes_out", "boom")])],
        Selected.feasible 10 ev = true)
    ∧ (aggregate 10 (receipts [(9, Send.results [("bytes_in", [])]),
          (10, Send.errs [("bytes_out", "boom")])] ++ Selected.timer :: [])
        Agg.init).elapsed ≤ (2 + 1) * 10 :=
  ⟨by decide,
    (QueryMetrics_returns_timeout_after_last_receipt 10
      [(9, Send.results [("bytes_in", [])]), (10, Send.errs [("bytes_out", "boom")])] []
      (by decide)).2.2.2⟩

/-- C4, as stated, fails: for an empty batch the loop has not returned before the
timer is picked and then returns 5 after its start, not at once; for a batch of
one the loop is still waiting after it has received the one outcome. -/
theorem QueryMetrics_waits_for_timer :
    (aggregate 5 [] Agg.init).returned = false
    ∧ (aggregate 5 [Selected.timer] Agg.init).elapsed = 5
    ∧ (receipts [(1, Send.results [("bytes_in", [])])]).length = 1
    ∧ (aggregate 5 (receipts [(1, Send.results [("bytes_in", [])])]) Agg.init).returned = false :=
  ⟨rfl, rfl, rfl, rfl⟩

/-- C4, amended. The loop keeps no count of the outcomes it has received: after
any number of receipts it is still inside a `select`, and it returns only when
the timer is picked, a full `timeout` after the last receipt; for an empty batch,
where nothing can be received, it returns two empty maps `timeout` after its
start. -/
theorem QueryMetrics_stops_only_on_timer (timeout : Nat) (recvs : List (Nat × Send))
    (post : List Selected) :
    (aggregate timeout (receipts recvs) Agg.init).returned = false
    ∧ (aggregate timeout (receipts recvs ++ Selected.timer :: post) Agg.init).returned = true
    ∧ (aggregate timeout (receipts recvs ++ Selected.timer :: post) Agg.init).elapsed =
        (recvs.map Prod.fst).sum + timeout
    ∧ aggregate timeout (Selected.timer :: post) Agg.init =
        { results := [], errors := [], elapsed := timeout, returned := true } := by
  have hclock := aggregate_receipts_clock timeout recvs Agg.init
  have h0 : Agg.init.elapsed = 0 := rfl
  rw [h0, Nat.zero_add] at hclock
  refine ⟨hclock.1, ?_, ?_, ?_⟩
  · rw [aggregate_receipts_timer]
  · rw [aggregate_receipts_timer]
    show (aggregate timeout (receipts recvs) Agg.init).elapsed + timeout = _
    rw [hclock.2]
  · rw [aggregate_timer]
    simp [Agg.init]

/-! ## The worker pool -/

theorem flatMap_filter_owner_perm (z : List (Metric × Nat)) (W : Nat) :
    List.Perm ((List.range W).flatMap fun w => z.filter (fun p => p.2 == w))
      (z.filter (fun p => decide (p.2 < W))) := by
  induction W with
  | zero => simp
  | succ W ih =>
    rw [List.range_succ, List.flatMap_append, List.flatMap_singleton]
    have hsplit := List.filter_append_perm (fun p : Metric × Nat => decide (p.2 < W))
      (z.filter (fun p => decide (p.2 < W + 1)))
    rw [List.filter_filter, List.filter_filter] at hsplit
    have e₁ : z.filter (fun a => decide (a.2 < W) && decide (a.2 < W + 1)) =
        z.filter (fun p => decide (p.2 < W)) := by
      apply List.filter_congr
      intro x _
      by_cases h : x.2 < W
      · have : x.2 < W + 1 := by omega
        simp [h, this]
      · simp [h]
    have e₂ : z.filter (fun a => (!decide (a.2 < W)) && decide (a.2 < W + 1)) =
        z.filter (fun p => p.2 == W) := by
      apply List.filter_congr
      intro x _
      by_cases h : x.2 = W
      · simp [h]
      · by_cases h' : x.2 < W
        · simp [h, h']
        · have : ¬ x.2 < W + 1 := by omega
          simp [h, h', this]
    rw [e₁, e₂] at hsplit
    exact (List.Perm.append_right _ ih).trans hsplit

theorem map_fst_zip_sublist (metrics : List Metric) (owners : List Nat) :
    List.Sublist ((metrics.zip owners).map Prod.fst) metrics := by
  induction metrics generalizing owners with
  | nil => simp
  | cons m ms ih =>
    cases owners with
    | nil => simp
    | cons o os =>
      simp only [List.zip_cons_cons, List.map_cons]
      exact List.Sublist.cons₂ m (ih os)

theorem flatMap_claimed_subperm (metrics : List Metric) (owners : List Nat) (W : Nat) :
    List.Subperm ((List.range W).flatMap (claimed metrics owners)) metrics := by
  have hperm := (flatMap_filter_owner_perm (metrics.zip owners) W).map Prod.fst
  rw [List.map_flatMap] at hperm
  have hsub : List.Sublist (((metrics.zip owners).filter (fun p => decide (p.2 < W))).map Prod.fst)
      metrics :=
    ((List.filter_sublist _).map Prod.fst).trans (map_fst_zip_sublist metrics owners)
  exact hperm.subperm.trans hsub.subperm

theorem length_claimed_le (metrics : List Metric) (owners : List Nat) (w : Nat) :
    (claimed metrics owners w).length ≤ metrics.length := by
  unfold claimed
  rw [List.length_map]
  have h₁ := List.length_filter_le (fun p : Metric × Nat => p.2 == w) (metrics.zip owners)
  have h₂ : (metrics.zip owners).length ≤ metrics.length := by
    rw [List.length_zip]
    exact Nat.min_le_left _ _
  omega

theorem poolSends_eq_map (client : TelemetryClient) (resourceType resourceID : String)
    (granularity : Granularity) (inter : String) (metrics : List Metric) (owners : List Nat) :
    poolSends client resourceType resourceID granularity inter metrics owners =
      ((List.range (workerCount metrics.length client.MaxWorkers)).flatMap
        (claimed metrics owners)).map
        fun m => (outcomeOf client resourceType resourceID granularity inter m).toSend := by
  unfold poolSends
  rw [List.map_flatMap]
  have hW : spawned metrics.length client.MaxWorkers =
      List.range (workerCount metrics.length client.MaxWorkers) := by
    rw [workerCount_eq, spawned_eq_range]
  rw [hW]
  congr 1
  funext w
  rw [QueryMetricAsync_sends, List.take_of_length_le (length_claimed_le metrics owners w)]

theorem poolSends_subperm (client : TelemetryClient) (resourceType resourceID : String)
    (granularity : Granularity) (inter : String) (metrics : List Metric) (owners : List Nat) :
    List.Subperm (poolSends client resourceType resourceID granularity inter metrics owners)
      (metrics.map fun m =>
        (outcomeOf client resourceType resourceID granularity inter m).toSend) := by
  rw [poolSends_eq_map]
  obtain ⟨l, hperm, hsub⟩ := flatMap_claimed_subperm metrics owners
    (workerCount metrics.length client.MaxWorkers)
  exact ⟨l.map _, hperm.map _, hsub.map _⟩

/-! ## The keys of the aggregated maps -/

theorem mem_results_receipts (timeout : Nat) (recvs : List (Nat × Send)) (s : Agg)
    (k : String) :
    k ∈ mapKeys (aggregate timeout (receipts recvs) s).results ↔
      k ∈ mapKeys s.results ∨ ∃ r, Send.results r ∈ recvs.map Prod.snd ∧ k ∈ mapKeys r := by
  induction recvs generalizing s with
  | nil => simp [receipts_nil, aggregate]
  | cons p recvs ih =>
    obtain ⟨w, snd⟩ := p
    cases snd with
    | results r₀ =>
      rw [receipts_cons_results, aggregate_result, ih]
      show k ∈ mapKeys (mergeResults s.results r₀) ∨ _ ↔ _
      rw [mem_mapKeys_mergeResults]
      simp only [List.map_cons, List.mem_cons]
      constructor
      · rintro ((h | h) | ⟨r, hr, hk⟩)
        · exact Or.inl h
        · exact Or.inr ⟨r₀, Or.inl rfl, h⟩
        · exact Or.inr ⟨r, Or.inr hr, hk⟩
      · rintro (h | ⟨r, hr | hr, hk⟩)
        · exact Or.inl (Or.inl h)
        · have hr' : r = r₀ := by injection hr
          subst hr'
          exact Or.inl (Or.inr hk)
        · exact Or.inr ⟨r, hr, hk⟩
    | errs e₀ =>
      rw [receipts_cons_errs, aggregate_error, ih]
      show k ∈ mapKeys s.results ∨ _ ↔ _
      simp only [List.map_cons, List.mem_cons]
      constructor
      · rintro (h | ⟨r, hr, hk⟩)
        · exact Or.inl h
        · exact Or.inr ⟨r, Or.inr hr, hk⟩
      · rintro (h | ⟨r, hr | hr, hk⟩)
        · exact Or.inl h
        · exact absurd hr (by simp)
        · exact Or.inr ⟨r, hr, hk⟩

theorem mem_errors_receipts (timeout : Nat) (recvs : List (Nat × Send)) (s : Agg)
    (k : String) :
    k ∈ mapKeys (aggregate timeout (receipts recvs) s).errors ↔
      k ∈ mapKeys s.errors ∨ ∃ e, Send.errs e ∈ recvs.map Prod.snd ∧ k ∈ mapKeys e := by
  induction recvs generalizing s with
  | nil => simp [receipts_nil, aggregate]
  | cons p recvs ih =>
    obtain ⟨w, snd⟩ := p
    cases snd with
    | results r₀ =>
      rw [receipts_cons_results, aggregate_result, ih]
      show k ∈ mapKeys s.errors ∨ _ ↔ _
      simp only [List.map_cons, List.mem_cons]
      constructor
      · rintro (h | ⟨e, he, hk⟩)
        · exact Or.inl h
        · exact Or.inr ⟨e, Or.inr he, hk⟩
      · rintro (h | ⟨e, he | he, hk⟩)
        · exact Or.inl h
        · exact absurd he (by simp)
        · exact Or.inr ⟨e, he, hk⟩
    | errs e₀ =>
      rw [receipts_cons_errs, aggregate_error, ih]
      show k ∈ mapKeys (mergeErrors s.errors e₀) ∨ _ ↔ _
      rw [mem_mapKeys_mergeErrors]
      simp only [List.map_cons, List.mem_cons]
      constructor
      · rintro ((h | h) | ⟨e, he, hk⟩)
        · exact Or.inl h
        · exact Or.inr ⟨e₀, Or.inl rfl, h⟩
        · exact Or.inr ⟨e, Or.inr he, hk⟩
      · rintro (h | ⟨e, he | he, hk⟩)
        · exact Or.inl (Or.inl h)
        · have he' : e = e₀ := by injection he
          subst he'
          exact Or.inl (Or.inr hk)
        · exact Or.inr ⟨e, he, hk⟩

theorem nodup_keys_receipts (timeout : Nat) (recvs : List (Nat × Send)) (s : Agg)
    (hres : (mapKeys s.results).Nodup) (herr : (mapKeys s.errors).Nodup) :
    (mapKeys (aggregate timeout (receipts recvs) s).results).Nodup
    ∧ (mapKeys (aggregate timeout (receipts recvs) s).errors).Nodup := by
  induction recvs generalizing s with
  | nil => exact ⟨hres, herr⟩
  | cons p recvs ih =>
    obtain ⟨w, snd⟩ := p
    cases snd with
    | results r₀ =>
      rw [receipts_cons_results, aggregate_result]
      exact ih _ (nodup_mapKeys_mergeResults _ _ hres) herr
    | errs e₀ =>
      rw [receipts_cons_errs, aggregate_error]
      exact ih _ hres (nodup_mapKeys_mergeErrors _ _ herr)

/-! ## The sends of a batch -/

theorem toSend_outcomeOf_of_none (client : TelemetryClient) (resourceType resourceID : String)
    (granularity : Granularity) (inter : String) (m : Metric)
    (h : (QueryMetric client resourceType resourceID granularity inter m).2 = none) :
    (outcomeOf client resourceType resourceID granularity inter m).toSend =
      Send.results
        [(m.Name, (QueryMetric client resourceType resourceID granularity inter m).1)] := by
  unfold outcomeOf
  rcases hq : QueryMetric client resourceType resourceID granularity inter m with ⟨r, _ | e⟩
  · rfl
  · rw [hq] at h
    exact absurd h (by simp)

theorem toSend_outcomeOf_of_some (client : TelemetryClient) (resourceType resourceID : String)
    (granularity : Granularity) (inter : String) (m : Metric) (err : GoError)
    (h : (QueryMetric client resourceType resourceID granularity inter m).2 = some err) :
    (outcomeOf client resourceType resourceID granularity inter m).toSend =
      Send.errs [(m.Name, err)] := by
  unfold outcomeOf
  rcases hq : QueryMetric client resourceType resourceID granularity inter m with ⟨r, _ | e⟩
  · rw [hq] at h
    exact absurd h (by simp)
  · rw [hq] at h
    have he : e = err := by simpa using h
    subst he
    rfl

theorem key_of_results_send (client : TelemetryClient) (resourceType resourceID : String)
    (granularity : Granularity) (inter : String) (metrics : List Metric)
    (r : List (String × List Telemetry)) (k : String)
    (hr : Send.results r ∈ metrics.map fun m =>
      (outcomeOf client resourceType resourceID granularity inter m).toSend)
    (hk : k ∈ mapKeys r) :
    ∃ m ∈ metrics,
      (QueryMetric client resourceType resourceID granularity inter m).2 = none ∧ k = m.Name := by
  obtain ⟨m, hm, hsend⟩ := List.mem_map.1 hr
  refine ⟨m, hm, ?_⟩
  cases hq : (QueryMetric client resourceType resourceID granularity inter m).2 with
  | none =>
    rw [toSend_outcomeOf_of_none _ _ _ _ _ _ hq] at hsend
    have hr' : [(m.Name, (QueryMetric client resourceType resourceID granularity inter m).1)] = r := by
      injection hsend
    subst hr'
    exact ⟨rfl, by simpa [mapKeys] using hk⟩
  | some err =>
    rw [toSend_outcomeOf_of_some _ _ _ _ _ _ err hq] at hsend
    exact absurd hsend (by simp)

theorem key_of_errs_send (client : TelemetryClient) (resourceType resourceID : String)
    (granularity : Granularity) (inter : String) (metrics : List Metric)
    (e : List (String × GoError)) (k : String)
    (he : Send.errs e ∈ metrics.map fun m =>
      (outcomeOf client resourceType resourceID granularity inter m).toSend)
    (hk : k ∈ mapKeys e) :
    ∃ m ∈ metrics,
      (QueryMetric client resourceType resourceID granularity inter m).2 ≠ none ∧ k = m.Name := by
  obtain ⟨m, hm, hsend⟩ := List.mem_map.1 he
  refine ⟨m, hm, ?_⟩
  cases hq : (QueryMetric client resourceType resourceID granularity inter m).2 with
  | none =>
    rw [toSend_outcomeOf_of_none _ _ _ _ _ _ hq] at hsend
    exact absurd hsend (by simp)
  | some err =>
    rw [toSend_outcomeOf_of_some _ _ _ _ _ _ err hq] at hsend
    have he' : [(m.Name, err)] = e := by injection hsend
    subst he'
    exact ⟨by simp, by simpa [mapKeys] using hk⟩

theorem results_errors_of_sends (client : TelemetryClient) (resourceType resourceID : String)
    (granularity : Granularity) (inter : String) (timeout : Nat) (metrics : List Metric)
    (recvs : List (Nat × Send))
    (hnames : (metrics.map Metric.Name).Nodup)
    (hsub : recvs.map Prod.snd ⊆ metrics.map fun m =>
      (outcomeOf client resourceType resourceID granularity inter m).toSend) :
    List.Disjoint (mapKeys (aggregate timeout (receipts recvs) Agg.init).results)
        (mapKeys (aggregate timeout (receipts recvs) Agg.init).errors)
    ∧ mapKeys (aggregate timeout (receipts recvs) Agg.init).results ⊆ metrics.map Metric.Name
    ∧ mapKeys (aggregate timeout (receipts recvs) Agg.init).errors ⊆ metrics.map Metric.Name := by
  have hres : ∀ k, k ∈ mapKeys (aggregate timeout (receipts recvs) Agg.init).results →
      ∃ m ∈ metrics,
        (QueryMetric client resourceType resourceID granularity inter m).2 = none
          ∧ k = m.Name := by
    intro k hk
    rcases (mem_results_receipts timeout recvs Agg.init k).1 hk with h | ⟨r, hr, hkr⟩
    · exact absurd h (by simp [Agg.init, mapKeys])
    · exact key_of_results_send _ _ _ _ _ _ _ _ (hsub hr) hkr
  have herr : ∀ k, k ∈ mapKeys (aggregate timeout (receipts recvs) Agg.init).errors →
      ∃ m ∈ metrics,
        (QueryMetric client resourceType resourceID granularity inter m).2 ≠ none
          ∧ k = m.Name := by
    intro k hk
    rcases (mem_errors_receipts timeout recvs Agg.init k).1 hk with h | ⟨e, he, hke⟩
    · exact absurd h (by simp [Agg.init, mapKeys])
    · exact key_of_errs_send _ _ _ _ _ _ _ _ (hsub he) hke
  refine ⟨?_, ?_, ?_⟩
  · rw [List.disjoint_left]
    intro k hk₁ hk₂
    obtain ⟨m₁, hm₁, hnone, hname₁⟩ := hres k hk₁
    obtain ⟨m₂, hm₂, hsome, hname₂⟩ := herr k hk₂
    have hm : m₁ = m₂ :=
      List.inj_on_of_nodup_map hnames hm₁ hm₂ (hname₁.symm.trans hname₂)
    subst hm
    exact hsome hnone
  · intro k hk
    obtain ⟨m, hm, _, hname⟩ := hres k hk
    exact List.mem_map.2 ⟨m, hm, hname.symm⟩
  · intro k hk
    obtain ⟨m, hm, _, hname⟩ := herr k hk
    exact List.mem_map.2 ⟨m, hm, hname.symm⟩

/-- C7. For a batch with pairwise distinct metric names, whatever part of the
workers' sends the loop has received (in any order), the key sets of `results`
and `errors` are disjoint and contain requested metric names only, both while
the loop is running and in the maps it returns when the timer cuts it short. -/
theorem QueryMetrics_results_errors_disjoint (client : TelemetryClient)
    (resourceType resourceID : String) (granularity : Granularity) (inter : String)
    (timeout : Nat) (metrics : List Metric) (owners : List Nat)
    (recvs : List (Nat × Send)) (post : List Selected)
    (hnames : (metrics.map Metric.Name).Nodup)
    (hrecv : List.Subperm (recvs.map Prod.snd)
      (poolSends client resourceType resourceID granularity inter metrics owners)) :
    (List.Disjoint (mapKeys (aggregate timeout (receipts recvs) Agg.init).results)
        (mapKeys (aggregate timeout (receipts recvs) Agg.init).errors)
      ∧ mapKeys (aggregate timeout (receipts recvs) Agg.init).results ⊆ metrics.map Metric.Name
      ∧ mapKeys (aggregate timeout (receipts recvs) Agg.init).errors ⊆ metrics.map Metric.Name)
    ∧ (List.Disjoint
        (mapKeys (aggregate timeout (receipts recvs ++ Selected.timer :: post) Agg.init).results)
        (mapKeys (aggregate timeout (receipts recvs ++ Selected.timer :: post) Agg.init).errors)
      ∧ mapKeys (aggregate timeout (receipts recvs ++ Selected.timer :: post) Agg.init).results ⊆
          metrics.map Metric.Name
      ∧ mapKeys (aggregate timeout (receipts recvs ++ Selected.timer :: post) Agg.init).errors ⊆
          metrics.map Metric.Name) := by
  have hsub : recvs.map Prod.snd ⊆ metrics.map fun m =>
      (outcomeOf client resourceType resourceID granularity inter m).toSend :=
    (hrecv.trans (poolSends_subperm _ _ _ _ _ _ _)).subset
  have hrun := results_errors_of_sends client resourceType resourceID granularity inter timeout
    metrics recvs hnames hsub
  refine ⟨hrun, ?_⟩
  rw [aggregate_receipts_timer]
  exact hrun

/-- C7 at a batch of two metrics of which one outcome was received. -/
theorem QueryMetrics_results_errors_disjoint_witness :
    (([{ Name := "bytes_in" }, { Name := "bytes_out" }] : List Metric).map Metric.Name).Nodup
    ∧ List.Subperm
        (([(4, Send.results [("bytes_out",
            [{ Timestamp := "t0", Value := 7, Metric := "bytes_out" },
             { Timestamp := "t1", Value := 9, Metric := "bytes_out" }])])] :
          List (Nat × Send)).map Prod.snd)
        (poolSends sampleClient "kafka" "lkc-1" noGranularity "PT1H/now"
          [{ Name := "bytes_in" }, { Name := "bytes_out" }] [0, 1])
    ∧ mapKeys (aggregate 10 (receipts [(4, Send.results [("bytes_out",
            [{ Timestamp := "t0", Value := 7, Metric := "bytes_out" },
             { Timestamp := "t1", Value := 9, Metric := "bytes_out" }])])] ++
          Selected.timer :: []) Agg.init).results ⊆
        ([{ Name := "bytes_in" }, { Name := "bytes_out" }] : List Metric).map Metric.Name :=
  ⟨by decide, by decide,
    (QueryMetrics_results_errors_disjoint sampleClient "kafka" "lkc-1" noGranularity "PT1H/now"
      10 [{ Name := "bytes_in" }, { Name := "bytes_out" }] [0, 1]
      [(4, Send.results [("bytes_out",
        [{ Timestamp := "t0", Value := 7, Metric := "bytes_out" },
         { Timestamp := "t1", Value := 9, Metric := "bytes_out" }])])] []
      (by decide) (by decide)).2.2.1⟩

/-! ## Completeness -/

theorem length_filter_add_length_filter_not (metrics : List Metric) (p : Metric → Bool) :
    (metrics.filter p).length + (metrics.filter (fun m => !p m)).length = metrics.length := by
  have h := (List.filter_append_perm p metrics).length_eq
  rw [List.length_append] at h
  exact h

/-- C6. For a batch of `N` metrics with pairwise distinct names, when the loop has
received `N` of the workers' sends (in any order) before it picks the timer, it
returns with every requested name a key of `results` exactly when `QueryMetric`
returned no error for it and a key of `errors` exactly when it returned one; the
two maps hold `N` entries together, and `N` and `0` entries when no call failed. -/
theorem QueryMetrics_complete (client : TelemetryClient)
    (resourceType resourceID : String) (granularity : Granularity) (inter : String)
    (timeout : Nat) (metrics : List Metric) (owners : List Nat)
    (recvs : List (Nat × Send)) (post : List Selected)
    (hnames : (metrics.map Metric.Name).Nodup)
    (hrecv : List.Subperm (recvs.map Prod.snd)
      (poolSends client resourceType resourceID granularity inter metrics owners))
    (hall : recvs.length = metrics.length) :
    (aggregate timeout (receipts recvs ++ Selected.timer :: post) Agg.init).returned = true
    ∧ (∀ m ∈ metrics,
        (m.Name ∈ mapKeys
            (aggregate timeout (receipts recvs ++ Selected.timer :: post) Agg.init).results ↔
          (QueryMetric client resourceType resourceID granularity inter m).2 = none)
        ∧ (m.Name ∈ mapKeys
            (aggregate timeout (receipts recvs ++ Selected.timer :: post) Agg.init).errors ↔
          (QueryMetric client resourceType resourceID granularity inter m).2 ≠ none))
    ∧ mapLen (aggregate timeout (receipts recvs ++ Selected.timer :: post) Agg.init).results +
        mapLen (aggregate timeout (receipts recvs ++ Selected.timer :: post) Agg.init).errors =
        metrics.length
    ∧ ((∀ m ∈ metrics,
          (QueryMetric client resourceType resourceID granularity inter m).2 = none) →
        mapLen (aggregate timeout (receipts recvs ++ Selected.timer :: post) Agg.init).results =
            metrics.length
          ∧ mapLen (aggregate timeout (receipts recvs ++ Selected.timer :: post)
              Agg.init).errors = 0) := by
  -- every send of the batch was received
  have hsubperm := hrecv.trans (poolSends_subperm client resourceType resourceID granularity
    inter metrics owners)
  have hperm : List.Perm (recvs.map Prod.snd) (metrics.map fun m =>
      (outcomeOf client resourceType resourceID granularity inter m).toSend) := by
    apply hsubperm.perm_of_length_le
    simp [hall]
  have hsub : recvs.map Prod.snd ⊆ metrics.map fun m =>
      (outcomeOf client resourceType resourceID granularity inter m).toSend := hperm.subset
  -- the returned maps are the accumulated ones
  have hR : (aggregate timeout (receipts recvs ++ Selected.timer :: post) Agg.init).results =
      (aggregate timeout (receipts recvs) Agg.init).results := by
    rw [aggregate_receipts_timer]
  have hE : (aggregate timeout (receipts recvs ++ Selected.timer :: post) Agg.init).errors =
      (aggregate timeout (receipts recvs) Agg.init).errors := by
    rw [aggregate_receipts_timer]
  rw [hR, hE]
  -- membership of a key, both ways
  have hres : ∀ k, k ∈ mapKeys (aggregate timeout (receipts recvs) Agg.init).results ↔
      ∃ m ∈ metrics,
        (QueryMetric client resourceType resourceID granularity inter m).2 = none
          ∧ k = m.Name := by
    intro k
    constructor
    · intro hk
      rcases (mem_results_receipts timeout recvs Agg.init k).1 hk with h | ⟨r, hr, hkr⟩
      · exact absurd h (by simp [Agg.init, mapKeys])
      · exact key_of_results_send _ _ _ _ _ _ _ _ (hsub hr) hkr
    · rintro ⟨m, hm, hnone, rfl⟩
      apply (mem_results_receipts timeout recvs Agg.init m.Name).2
      refine Or.inr ⟨[(m.Name, (QueryMetric client resourceType resourceID granularity inter m).1)],
        ?_, by simp [mapKeys]⟩
      apply hperm.mem_iff.2
      rw [← toSend_outcomeOf_of_none _ _ _ _ _ _ hnone]
      exact List.mem_map_of_mem _ hm
  have herr : ∀ k, k ∈ mapKeys (aggregate timeout (receipts recvs) Agg.init).errors ↔
      ∃ m ∈ metrics,
        (QueryMetric client resourceType resourceID granularity inter m).2 ≠ none
          ∧ k = m.Name := by
    intro k
    constructor
    · intro hk
      rcases (mem_errors_receipts timeout recvs Agg.init k).1 hk with h | ⟨e, he, hke⟩
      · exact absurd h (by simp [Agg.init, mapKeys])
      · exact key_of_errs_send _ _ _ _ _ _ _ _ (hsub he) hke
    · rintro ⟨m, hm, hsome, rfl⟩
      obtain ⟨err, herr⟩ := Option.ne_none_iff_exists'.1 hsome
      apply (mem_errors_receipts timeout recvs Agg.init m.Name).2
      refine Or.inr ⟨[(m.Name, err)], ?_, by simp [mapKeys]⟩
      apply hperm.mem_iff.2
      rw [← toSend_outcomeOf_of_some _ _ _ _ _ _ err herr]
      exact List.mem_map_of_mem _ hm
  have hinj := @List.inj_on_of_nodup_map _ _ Metric.Name metrics hnames
  -- the two key lists against the two halves of the batch
  have hnodup := nodup_keys_receipts timeout recvs Agg.init
    (by simp [Agg.init, mapKeys]) (by simp [Agg.init, mapKeys])
  have hmetrics : metrics.Nodup := List.Nodup.of_map _ hnames
  have hlenR : mapLen (aggregate timeout (receipts recvs) Agg.init).results =
      (metrics.filter fun m =>
        (QueryMetric client resourceType resourceID granularity inter m).2.isNone).length := by
    have hnd : ((metrics.filter fun m =>
        (QueryMetric client resourceType resourceID granularity inter m).2.isNone).map
          Metric.Name).Nodup :=
      List.Nodup.sublist ((List.filter_sublist _).map _) hnames
    have hp := (List.perm_ext_iff_of_nodup hnodup.1 hnd).2 (by
      intro k
      rw [hres k]
      simp only [List.mem_map, List.mem_filter, Option.isNone_iff_eq_none]
      constructor
      · rintro ⟨m, hm, hnone, rfl⟩
        exact ⟨m, ⟨hm, hnone⟩, rfl⟩
      · rintro ⟨m, ⟨hm, hnone⟩, rfl⟩
        exact ⟨m, hm, hnone, rfl⟩)
    have := hp.length_eq
    simpa [mapLen, mapKeys] using this
  have hlenE : mapLen (aggregate timeout (receipts recvs) Agg.init).errors =
      (metrics.filter fun m =>
        !(QueryMetric client resourceType resourceID granularity inter m).2.isNone).length := by
    have hnd : ((metrics.filter fun m =>
        !(QueryMetric client resourceType resourceID granularity inter m).2.isNone).map
          Metric.Name).Nodup :=
      List.Nodup.sublist ((List.filter_sublist _).map _) hnames
    have hp := (List.perm_ext_iff_of_nodup hnodup.2 hnd).2 (by
      intro k
      rw [herr k]
      simp only [List.mem_map, List.mem_filter, Bool.not_eq_true', Option.isNone_eq_false_iff,
        Option.isSome_iff_ne_none]
      constructor
      · rintro ⟨m, hm, hsome, rfl⟩
        exact ⟨m, ⟨hm, hsome⟩, rfl⟩
      · rintro ⟨m, ⟨hm, hsome⟩, rfl⟩
        exact ⟨m, hm, hsome, rfl⟩)
    have := hp.length_eq
    simpa [mapLen, mapKeys] using this
  refine ⟨?_, ?_, ?_, ?_⟩
  · rw [aggregate_receipts_timer]
  · intro m hm
    constructor
    · rw [hres]
      constructor
      · rintro ⟨m', hm', hnone, hname⟩
        have : m = m' := hinj hm hm' hname
        rw [this]
        exact hnone
      · intro hnone
        exact ⟨m, hm, hnone, rfl⟩
    · rw [herr]
      constructor
      · rintro ⟨m', hm', hsome, hname⟩
        have : m = m' := hinj hm hm' hname
        rw [this]
        exact hsome
      · intro hsome
        exact ⟨m, hm, hsome, rfl⟩
  · rw [hlenR, hlenE]
    exact length_filter_add_length_filter_not metrics _
  · intro hok
    have hnone : (metrics.filter fun m =>
        !(QueryMetric client resourceType resourceID granularity inter m).2.isNone) = [] := by
      rw [List.filter_eq_nil_iff]
      intro m hm
      simp [hok m hm]
    have hsum := length_filter_add_length_filter_not metrics (fun m =>
      (QueryMetric client resourceType resourceID granularity inter m).2.isNone)
    rw [hlenR, hlenE, hnone]
    rw [hnone] at hsum
    exact ⟨by simpa using hsum, rfl⟩

/-- C6 at a batch of two metrics, both outcomes received, the second metric's
first. -/
theorem QueryMetrics_complete_witness :
    (([{ Name := "bytes_in" }, { Name := "bytes_out" }] : List Metric).map Metric.Name).Nodup
    ∧ List.Subperm
        (([(4, Send.results [("bytes_out",
              [{ Timestamp := "t0", Value := 7, Metric := "bytes_out" },
               { Timestamp := "t1", Value := 9, Metric := "bytes_out" }])]),
           (2, Send.results [("bytes_in",
              [{ Timestamp := "t0", Value := 7, Metric := "bytes_in" },
               { Timestamp := "t1", Value := 9, Metric := "bytes_in" }])])] :
          List (Nat × Send)).map Prod.snd)
        (poolSends sampleClient "kafka" "lkc-1" noGranularity "PT1H/now"
          [{ Name := "bytes_in" }, { Name := "bytes_out" }] [0, 1])
    ∧ mapLen (aggregate 10 (receipts
          [(4, Send.results [("bytes_out",
              [{ Timestamp := "t0", Value := 7, Metric := "bytes_out" },
               { Timestamp := "t1", Value := 9, Metric := "bytes_out" }])]),
           (2, Send.results [("bytes_in",
              [{ Timestamp := "t0", Value := 7, Metric := "bytes_in" },
               { Timestamp := "t1", Value := 9, Metric := "bytes_in" }])])] ++
          Selected.timer :: []) Agg.init).results +
        mapLen (aggregate 10 (receipts
          [(4, Send.results [("bytes_out",
              [{ Timestamp := "t0", Value := 7, Metric := "bytes_out" },
               { Timestamp := "t1", Value := 9, Metric := "bytes_out" }])]),
           (2, Send.results [("bytes_in",
              [{ Timestamp := "t0", Value := 7, Metric := "bytes_in" },
               { Timestamp := "t1", Value := 9, Metric := "bytes_in" }])])] ++
          Selected.timer :: []) Agg.init).errors =
        ([{ Name := "bytes_in" }, { Name := "bytes_out" }] : List Metric).length :=
  ⟨by decide, by decide,
    (QueryMetrics_complete sampleClient "kafka" "lkc-1" noGranularity "PT1H/now"
      10 [{ Name := "bytes_in" }, { Name := "bytes_out" }] [0, 1]
      [(4, Send.results [("bytes_out",
          [{ Timestamp := "t0", Value := 7, Metric := "bytes_out" },
           { Timestamp := "t1", Value := 9, Metric := "bytes_out" }])]),
       (2, Send.results [("bytes_in",
          [{ Timestamp := "t0", Value := 7, Metric := "bytes_in" },
           { Timestamp := "t1", Value := 9, Metric := "bytes_in" }])])] []
      (by decide) (by decide) rfl).2.2.1⟩

end CCloud
